import Mathlib

/-!
Verification development for the boolector reduction core.

This file shallowly embeds the SAT backend adapter of btorsat.c, the public
status constants and division conventions documented in boolector.h, and the
node-map / substitution contracts declared in btormap.h, and proves the
specified properties about them.
-/

set_option autoImplicit false

namespace BoolectorSpec

/-! ### SAT backend adapter (btorsat.c)

The C struct BtorSATMgr holds an int id counter, a verbosity level and a
memory-manager pointer.  Machine ints are modelled as Int together with the
explicit INT_MAX bound checked by the assertion in btor_next_cnf_id_sat_mgr.
A fatal assertion is modelled as the none branch of an Option result. -/

def INT_MAX : Int := 2147483647

structure BtorSATMgr where
  id : Int
  verbosity : Int
  mm : Nat
deriving DecidableEq

/-- btor_new_sat_mgr: asserts mm nonnull and verbosity at least -1,
then allocates the manager with id 1. -/
def btor_new_sat_mgr (mm : Nat) (verbosity : Int) : Option BtorSATMgr :=
  if mm ≠ 0 ∧ -1 ≤ verbosity then some ⟨1, verbosity, mm⟩ else none

/-- btor_next_cnf_id_sat_mgr: asserts id below INT_MAX, returns the current
id and post-increments it. -/
def btor_next_cnf_id_sat_mgr (smgr : BtorSATMgr) : Option (Int × BtorSATMgr) :=
  if smgr.id < INT_MAX then some (smgr.id, ⟨smgr.id + 1, smgr.verbosity, smgr.mm⟩)
  else none

/-- btor_get_last_cnf_id_sat_mgr: asserts id greater than 1 (at least one
index has been generated), returns id - 1. -/
def btor_get_last_cnf_id_sat_mgr (smgr : BtorSATMgr) : Option Int :=
  if 1 < smgr.id then some (smgr.id - 1) else none

/-- Issue n consecutive cnf ids, collecting them in order. -/
def issueIds : Nat → BtorSATMgr → Option (List Int × BtorSATMgr)
  | 0, s => some ([], s)
  | n + 1, s =>
    match btor_next_cnf_id_sat_mgr s with
    | none => none
    | some (i, s1) =>
      match issueIds n s1 with
      | none => none
      | some (l, s2) => some (i :: l, s2)

/-- The arithmetic sequence a, a+1, ..., a+n-1. -/
def idsFrom (a : Int) : Nat → List Int
  | 0 => []
  | n + 1 => a :: idsFrom (a + 1) n

/-! The remaining btorsat.c operations delegate to the external PicoSAT
backend, which only receives the literal or limit argument, never the
manager.  The backend is modelled as an abstract state type together with
one transformer per picosat entry point. -/

structure PicoAPI (σ : Type) where
  initCall : σ → σ
  setOutput : σ → Nat → σ
  enableVerbosity : σ → σ
  statsCall : σ → σ
  addLit : σ → Int → σ
  printCnf : σ → Nat → σ
  assumeLit : σ → Int → σ
  satCall : σ → Int → Int × σ
  derefLit : σ → Int → Int × σ
  resetCall : σ → σ
  changedCall : σ → Int × σ

def btor_init_sat {σ : Type} (api : PicoAPI σ) (st : BtorSATMgr × σ) : BtorSATMgr × σ :=
  (st.1, api.initCall st.2)

def btor_set_output_sat {σ : Type} (api : PicoAPI σ) (st : BtorSATMgr × σ) (out : Nat) :
    BtorSATMgr × σ :=
  (st.1, api.setOutput st.2 out)

def btor_enable_verbosity_sat {σ : Type} (api : PicoAPI σ) (st : BtorSATMgr × σ) :
    BtorSATMgr × σ :=
  (st.1, api.enableVerbosity st.2)

def btor_print_stats_sat {σ : Type} (api : PicoAPI σ) (st : BtorSATMgr × σ) :
    BtorSATMgr × σ :=
  (st.1, api.statsCall st.2)

def btor_add_sat {σ : Type} (api : PicoAPI σ) (st : BtorSATMgr × σ) (lit : Int) :
    BtorSATMgr × σ :=
  (st.1, api.addLit st.2 lit)

def btor_dump_cnf_sat {σ : Type} (api : PicoAPI σ) (st : BtorSATMgr × σ) (out : Nat) :
    BtorSATMgr × σ :=
  (st.1, api.printCnf st.2 out)

def btor_assume_sat {σ : Type} (api : PicoAPI σ) (st : BtorSATMgr × σ) (lit : Int) :
    BtorSATMgr × σ :=
  (st.1, api.assumeLit st.2 lit)

def btor_sat_sat {σ : Type} (api : PicoAPI σ) (st : BtorSATMgr × σ) (limit : Int) :
    Int × (BtorSATMgr × σ) :=
  ((api.satCall st.2 limit).1, (st.1, (api.satCall st.2 limit).2))

def btor_deref_sat {σ : Type} (api : PicoAPI σ) (st : BtorSATMgr × σ) (lit : Int) :
    Int × (BtorSATMgr × σ) :=
  ((api.derefLit st.2 lit).1, (st.1, (api.derefLit st.2 lit).2))

def btor_reset_sat {σ : Type} (api : PicoAPI σ) (st : BtorSATMgr × σ) : BtorSATMgr × σ :=
  (st.1, api.resetCall st.2)

def btor_changed_assignments_sat {σ : Type} (api : PicoAPI σ) (st : BtorSATMgr × σ) :
    Int × (BtorSATMgr × σ) :=
  ((api.changedCall st.2).1, (st.1, (api.changedCall st.2).2))

/-! ### Status constants (boolector.h) -/

def BOOLECTOR_UNKNOWN : Int := 0
def BOOLECTOR_SAT : Int := 10
def BOOLECTOR_UNSAT : Int := 20
def BOOLECTOR_PARSE_ERROR : Int := 1

/-! ### Concrete backend solve model (for btor_sat_sat) -/

/-- Modelled from the spec: the concrete SAT engine (PicoSAT) is an external
collaborator whose code is not part of this tree.  Its state is abstracted to
the satisfiability answer of the pushed formula and the resource cost needed
to decide it. -/
structure PicoState where
  answerSat : Bool
  cost : Int
deriving DecidableEq

/-- Modelled from the spec: picosat_sat with an optional resource limit
(negative means no limit) returns SAT or UNSAT, or UNKNOWN exactly when the
limit is finite and exhausted by the required cost. -/
def picosat_sat (ps : PicoState) (limit : Int) : Int :=
  if 0 ≤ limit ∧ limit < ps.cost then BOOLECTOR_UNKNOWN
  else if ps.answerSat then BOOLECTOR_SAT else BOOLECTOR_UNSAT

/-- btor_sat_sat instantiated with the modelled backend: it simply forwards
the limit to picosat_sat and leaves the manager untouched. -/
def btor_sat_sat_pico (smgr : BtorSATMgr) (ps : PicoState) (limit : Int) :
    Int × BtorSATMgr :=
  (picosat_sat ps limit, smgr)

/-! ### Bit-vector division conventions (boolector.h) -/

/-- Modelled from the spec: the bit-blasting implementation of
boolector_udiv is not part of this tree; boolector.h fixes the semantics on a
zero divisor to the bit vector -1 of the operand width. -/
def btor_udiv (w : Nat) (a b : Nat) : Nat :=
  if b = 0 then ((-1 : Int) % ((2 : Int) ^ w)).toNat else a / b

/-- Modelled from the spec: the bit-blasting implementation of
boolector_urem is not part of this tree; boolector.h fixes the semantics on a
zero divisor to the dividend. -/
def btor_urem (w : Nat) (a b : Nat) : Nat :=
  if b = 0 then a else a % b

/-- The all-ones bit vector of width w. -/
def allOnesBV (w : Nat) : Nat := 2 ^ w - 1

/-! ### Node map (btormap.h)

A node reference is a node id with a low-bit tag (bit 0 the sign tag, bit 1
the parent pointer tag), mirroring the pointer-tagging convention.  The map
stores one entry per mapped pair, keyed on the real (untagged) source node;
tag propagation is implicit through tag composition on lookup.  Reference
counts are a function from node ids to integers; the map owns one reference
to the source and destination of every inserted pair. -/

structure NodeRef where
  id : Nat
  tag : Nat
deriving DecidableEq

/-- Combine a tag onto a reference (xor composition of tag bits). -/
def applyTag (r : NodeRef) (t : Nat) : NodeRef := ⟨r.id, r.tag ^^^ t⟩

/-- BTOR_INVERT_NODE: flip the sign bit of a reference. -/
def invertNode (r : NodeRef) : NodeRef := applyTag r 1

/-- BTOR_REAL_ADDR_NODE: strip the tag bits. -/
def realAddr (r : NodeRef) : NodeRef := ⟨r.id, 0⟩

def bump (rc : Nat → Int) (a : Nat) : Nat → Int :=
  fun j => if j = a then rc j + 1 else rc j

def drop1 (rc : Nat → Int) (a : Nat) : Nat → Int :=
  fun j => if j = a then rc j - 1 else rc j

def ind (j a : Nat) : Int := if j = a then 1 else 0

structure BtorNodeMap where
  tbl : List (Nat × NodeRef)
deriving DecidableEq

/-- Modelled from the spec: btor_new_node_map creates an empty map. -/
def btor_new_node_map : BtorNodeMap := ⟨[]⟩

def lookupTbl : List (Nat × NodeRef) → Nat → Option NodeRef
  | [], _ => none
  | (k, v) :: rest, i => if k = i then some v else lookupTbl rest i

/-- Modelled from the spec: btor_mapped_node looks the real source up and
re-applies the tag of the queried reference to the stored destination; it
does not touch any reference count. -/
def btor_mapped_node (m : BtorNodeMap) (n : NodeRef) : Option NodeRef :=
  match lookupTbl m.tbl n.id with
  | none => none
  | some d => some (applyTag d n.tag)

/-- Modelled from the spec: btor_map_node acquires one reference on the
source and one on the destination and stores the pair, keyed on the real
source node with the source tag folded into the stored destination. -/
def btor_map_node (rc : Nat → Int) (m : BtorNodeMap) (src dst : NodeRef) :
    (Nat → Int) × BtorNodeMap :=
  (bump (bump rc src.id) dst.id, ⟨(src.id, applyTag dst src.tag) :: m.tbl⟩)

/-- Modelled from the spec: btor_delete_node_map releases the owned source
and destination reference of every stored pair. -/
def btor_delete_node_map (rc : Nat → Int) (m : BtorNodeMap) : Nat → Int :=
  m.tbl.foldl (fun r p => drop1 (drop1 r p.1) p.2.id) rc

/-- Populate a map with a list of pairs, threading the reference counts. -/
def insertAll (rc : Nat → Int) (m : BtorNodeMap) :
    List (NodeRef × NodeRef) → (Nat → Int) × BtorNodeMap
  | [] => (rc, m)
  | (s, d) :: ps =>
    insertAll (btor_map_node rc m s d).1 (btor_map_node rc m s d).2 ps

/-- How many owned references to node id i a list of inserted pairs holds. -/
def occPairs (i : Nat) : List (NodeRef × NodeRef) → Int
  | [] => 0
  | p :: ps => ind i p.1.id + ind i p.2.id + occPairs i ps

/-- How many owned references to node id i the stored table holds. -/
def occTbl (i : Nat) : List (Nat × NodeRef) → Int
  | [] => 0
  | e :: t => ind i e.1 + ind i e.2.id + occTbl i t

/-! ### Extended substitution (btormap.h)

Modelled from the spec: the body of btor_non_recursive_extended_substitute_node
is not part of this tree.  Nodes are modelled as at-most-binary operator
trees whose child edges carry tags; a reference is a tag paired with a node.
The engine traverses real (untagged) nodes, tries the caller-supplied mapper
first on each of them, otherwise rebuilds from the substituted children, and
re-applies the tag of the incoming reference to every result.  The list
component records every argument the mapper was invoked on. -/

inductive ENode where
  | leaf : Nat → ENode
  | bin : Nat → Nat → ENode → Nat → ENode → ENode
deriving DecidableEq

/-- Re-apply tag t to a reference (xor composition). -/
def tagERef (t : Nat) (r : Nat × ENode) : Nat × ENode := (r.1 ^^^ t, r.2)

/-- Modelled from the spec: the traversal core, working on real nodes only;
returns the substituted reference and the log of mapper invocations. -/
def substExtReal (f : Nat × ENode → Option (Nat × ENode)) :
    ENode → (Nat × ENode) × List (Nat × ENode)
  | ENode.leaf k =>
    match f (0, ENode.leaf k) with
    | some r => (r, [(0, ENode.leaf k)])
    | none => ((0, ENode.leaf k), [(0, ENode.leaf k)])
  | ENode.bin k t1 c1 t2 c2 =>
    match f (0, ENode.bin k t1 c1 t2 c2) with
    | some r => (r, [(0, ENode.bin k t1 c1 t2 c2)])
    | none =>
      ((0, ENode.bin k
          ((substExtReal f c1).1.1 ^^^ t1) (substExtReal f c1).1.2
          ((substExtReal f c2).1.1 ^^^ t2) (substExtReal f c2).1.2),
       (0, ENode.bin k t1 c1 t2 c2) :: ((substExtReal f c1).2 ++ (substExtReal f c2).2))

/-- Modelled from the spec: the entry point normalizes the root reference,
runs the traversal on its real node, and re-applies the original root tag to
the result. -/
def btor_non_recursive_extended_substitute_node
    (f : Nat × ENode → Option (Nat × ENode)) (root : Nat × ENode) :
    (Nat × ENode) × List (Nat × ENode) :=
  (tagERef root.1 (substExtReal f root.2).1, (substExtReal f root.2).2)

/-- A mapper that maps nothing, used as a concrete instance. -/
def mapperNone : Nat × ENode → Option (Nat × ENode) := fun _ => none

/-! ### Helper lemmas -/

theorem issueIds_spec (n : Nat) : ∀ (s : BtorSATMgr), s.id + (n : Int) ≤ INT_MAX →
    issueIds n s = some (idsFrom s.id n, ⟨s.id + (n : Int), s.verbosity, s.mm⟩) := by
  induction n with
  | zero =>
    intro s h
    simp [issueIds, idsFrom]
  | succ n ih =>
    intro s h
    have hlt : s.id < INT_MAX := by push_cast at h; omega
    simp only [issueIds, btor_next_cnf_id_sat_mgr, if_pos hlt]
    rw [ih ⟨s.id + 1, s.verbosity, s.mm⟩ (by push_cast at h ⊢; omega)]
    have hadd : s.id + 1 + (n : Int) = s.id + ((n + 1 : Nat) : Int) := by push_cast; ring
    simp [idsFrom, hadd]

theorem idsFrom_getD (n : Nat) : ∀ (a : Int) (k : Nat), k < n →
    (idsFrom a n).getD k 0 = a + (k : Int) := by
  induction n with
  | zero => intro a k hk; omega
  | succ n ih =>
    intro a k hk
    cases k with
    | zero => simp [idsFrom]
    | succ k =>
      have hk2 : k < n := by omega
      simp only [idsFrom, List.getD_cons_succ]
      rw [ih (a + 1) k hk2]
      push_cast
      ring

theorem issueIds_final_id (n : Nat) : ∀ (s s2 : BtorSATMgr) (l : List Int),
    issueIds n s = some (l, s2) → s2.id = s.id + (n : Int) := by
  induction n with
  | zero =>
    intro s s2 l h
    simp only [issueIds, Option.some.injEq, Prod.mk.injEq] at h
    rw [← h.2]
    simp
  | succ n ih =>
    intro s s2 l h
    simp only [issueIds] at h
    cases hf : btor_next_cnf_id_sat_mgr s with
    | none => simp only [hf] at h; exact absurd h (by simp)
    | some p =>
      obtain ⟨i, s1⟩ := p
      simp only [hf] at h
      cases hr : issueIds n s1 with
      | none => simp only [hr] at h; exact absurd h (by simp)
      | some q =>
        obtain ⟨l2, s3⟩ := q
        simp only [hr, Option.some.injEq, Prod.mk.injEq] at h
        have hid1 : s1.id = s.id + 1 := by
          unfold btor_next_cnf_id_sat_mgr at hf
          split at hf
          · simp only [Option.some.injEq, Prod.mk.injEq] at hf
            rw [← hf.2]
          · exact absurd hf (by simp)
        have := ih s1 s3 l2 hr
        rw [← h.2, this, hid1]
        push_cast
        ring

theorem bump_apply (rc : Nat → Int) (a j : Nat) : bump rc a j = rc j + ind j a := by
  simp only [bump, ind]
  split <;> simp

theorem drop1_apply (rc : Nat → Int) (a j : Nat) : drop1 rc a j = rc j - ind j a := by
  simp only [drop1, ind]
  split <;> simp

theorem insertAll_rc (ps : List (NodeRef × NodeRef)) :
    ∀ (rc : Nat → Int) (m : BtorNodeMap) (i : Nat),
    (insertAll rc m ps).1 i = rc i + occPairs i ps := by
  induction ps with
  | nil => intro rc m i; simp [insertAll, occPairs]
  | cons p ps ih =>
    intro rc m i
    obtain ⟨s, d⟩ := p
    simp only [insertAll]
    rw [ih]
    show bump (bump rc s.id) d.id i + occPairs i ps = rc i + occPairs i ((s, d) :: ps)
    rw [bump_apply, bump_apply]
    simp only [occPairs]
    ring

theorem delete_fold (tbl : List (Nat × NodeRef)) : ∀ (rc : Nat → Int) (i : Nat),
    List.foldl (fun r p => drop1 (drop1 r p.1) p.2.id) rc tbl i = rc i - occTbl i tbl := by
  induction tbl with
  | nil => intro rc i; simp [occTbl]
  | cons e t ih =>
    intro rc i
    simp only [List.foldl_cons]
    rw [ih, drop1_apply, drop1_apply]
    simp only [occTbl]
    ring

theorem delete_spec (rc : Nat → Int) (m : BtorNodeMap) (i : Nat) :
    btor_delete_node_map rc m i = rc i - occTbl i m.tbl :=
  delete_fold m.tbl rc i

theorem insertAll_tbl (ps : List (NodeRef × NodeRef)) :
    ∀ (rc : Nat → Int) (m : BtorNodeMap) (i : Nat),
    occTbl i (insertAll rc m ps).2.tbl = occTbl i m.tbl + occPairs i ps := by
  induction ps with
  | nil => intro rc m i; simp [insertAll, occPairs]
  | cons p ps ih =>
    intro rc m i
    obtain ⟨s, d⟩ := p
    simp only [insertAll]
    rw [ih]
    simp only [btor_map_node, occTbl, occPairs, applyTag]
    ring

theorem applyTag_applyTag (r : NodeRef) (t : Nat) : applyTag (applyTag r t) t = r := by
  cases r with
  | mk i tg => simp [applyTag, Nat.xor_assoc]

theorem substExtReal_log_tags (f : Nat × ENode → Option (Nat × ENode)) :
    ∀ (n : ENode) (c : Nat × ENode), c ∈ (substExtReal f n).2 → c.1 = 0 := by
  intro n
  induction n with
  | leaf k =>
    intro c hc
    cases hf : f (0, ENode.leaf k) <;> simp [substExtReal, hf] at hc <;> simp [hc]
  | bin k t1 c1 t2 c2 ih1 ih2 =>
    intro c hc
    cases hf : f (0, ENode.bin k t1 c1 t2 c2) with
    | some r =>
      simp [substExtReal, hf] at hc
      simp [hc]
    | none =>
      simp [substExtReal, hf] at hc
      rcases hc with h | h | h
      · simp [h]
      · exact ih1 c h
      · exact ih2 c h

/-! ### Claim theorems -/

/-- C1: for every freshly created SAT manager the id counter starts at 1,
successive btor_next_cnf_id_sat_mgr calls return strictly increasing
integers with the N-th call returning N, and btor_get_last_cnf_id_sat_mgr
after N at least 1 issuing calls returns the N-th issued id. -/
theorem sat_mgr_id_monotone (mm : Nat) (v : Int) (N : Nat) (s : BtorSATMgr)
    (hmm : mm ≠ 0) (hv : -1 ≤ v) (hN : (N : Int) ≤ INT_MAX - 1)
    (hs : btor_new_sat_mgr mm v = some s) :
    s.id = 1 ∧
    issueIds N s = some (idsFrom 1 N, ⟨1 + (N : Int), v, mm⟩) ∧
    (∀ k : Nat, k < N → (idsFrom 1 N).getD k 0 = 1 + (k : Int)) ∧
    (∀ i j : Nat, i < j → j < N →
      (idsFrom 1 N).getD i 0 < (idsFrom 1 N).getD j 0) ∧
    (1 ≤ N → btor_get_last_cnf_id_sat_mgr ⟨1 + (N : Int), v, mm⟩ =
      some ((idsFrom 1 N).getD (N - 1) 0) ∧
      (idsFrom 1 N).getD (N - 1) 0 = (N : Int)) := by
  rw [btor_new_sat_mgr, if_pos ⟨hmm, hv⟩] at hs
  obtain rfl : (⟨1, v, mm⟩ : BtorSATMgr) = s := Option.some.inj hs
  refine ⟨rfl, ?_, ?_, ?_, ?_⟩
  · exact issueIds_spec N ⟨1, v, mm⟩ (by simp only; omega)
  · intro k hk
    exact idsFrom_getD N 1 k hk
  · intro i j hij hj
    rw [idsFrom_getD N 1 i (by omega), idsFrom_getD N 1 j hj]
    omega
  · intro hN1
    constructor
    · rw [idsFrom_getD N 1 (N - 1) (by omega)]
      rw [btor_get_last_cnf_id_sat_mgr]
      rw [if_pos (by simp only; omega)]
      simp only [Option.some.injEq]
      omega
    · rw [idsFrom_getD N 1 (N - 1) (by omega)]
      omega

/-- C1 witness at a concrete fresh manager and N = 3. -/
theorem sat_mgr_id_monotone_witness :
    issueIds 3 ⟨1, 0, 1⟩ = some (idsFrom 1 3, ⟨1 + ((3 : Nat) : Int), 0, 1⟩) :=
  (sat_mgr_id_monotone 1 0 3 ⟨1, 0, 1⟩ (by decide) (by decide) (by decide)
    (by decide)).2.1

/-- C2: after map(src, dst) a lookup of src returns dst (and keeps doing so
after a pair with a different source is added), lookups do not touch any
reference count, and deleting a map populated from empty releases exactly
the references the inserts acquired, so the net reference-count delta is
zero at every node id. -/
theorem node_map_round_trip (rc : Nat → Int) (m : BtorNodeMap)
    (src dst src2 dst2 : NodeRef) (ps : List (NodeRef × NodeRef)) (i : Nat)
    (hne : src2.id ≠ src.id) :
    btor_mapped_node (btor_map_node rc m src dst).2 src = some dst ∧
    btor_mapped_node
      (btor_map_node (btor_map_node rc m src dst).1
        (btor_map_node rc m src dst).2 src2 dst2).2 src = some dst ∧
    btor_delete_node_map (insertAll rc btor_new_node_map ps).1
      (insertAll rc btor_new_node_map ps).2 i = rc i := by
  refine ⟨?_, ?_, ?_⟩
  · simp [btor_mapped_node, btor_map_node, lookupTbl, applyTag_applyTag]
  · simp [btor_mapped_node, btor_map_node, lookupTbl, hne, applyTag_applyTag]
  · rw [delete_spec, insertAll_rc, insertAll_tbl]
    simp [btor_new_node_map, occTbl]

/-- C2 witness at a concrete pair, a second insert, and a one-pair map. -/
theorem node_map_round_trip_witness :
    btor_mapped_node
      (btor_map_node (fun _ => (0 : Int)) btor_new_node_map ⟨1, 0⟩ ⟨2, 1⟩).2
      ⟨1, 0⟩ = some ⟨2, 1⟩ ∧
    btor_delete_node_map
      (insertAll (fun _ => (0 : Int)) btor_new_node_map [(⟨1, 0⟩, ⟨2, 1⟩)]).1
      (insertAll (fun _ => (0 : Int)) btor_new_node_map [(⟨1, 0⟩, ⟨2, 1⟩)]).2 2 =
      (fun _ => (0 : Int)) 2 :=
  ⟨(node_map_round_trip (fun _ => 0) btor_new_node_map ⟨1, 0⟩ ⟨2, 1⟩ ⟨3, 0⟩ ⟨4, 0⟩
      [(⟨1, 0⟩, ⟨2, 1⟩)] 2 (by decide)).1,
   (node_map_round_trip (fun _ => 0) btor_new_node_map ⟨1, 0⟩ ⟨2, 1⟩ ⟨3, 0⟩ ⟨4, 0⟩
      [(⟨1, 0⟩, ⟨2, 1⟩)] 2 (by decide)).2.2⟩

/-- C3: if node a is mapped to node b then for every tag t the reference to
a carrying t is mapped to the reference to b carrying t, through the single
stored entry; in particular an inverted reference derived from a substitutes
to the inverted reference derived from b. -/
theorem node_map_tag_preservation (rc : Nat → Int) (m : BtorNodeMap)
    (a b : NodeRef) (t : Nat) (ha : a.tag = 0) (hb : b.tag = 0) :
    btor_mapped_node (btor_map_node rc m a b).2 (applyTag a t) =
      some (applyTag b t) ∧
    btor_mapped_node (btor_map_node rc m a b).2 (invertNode a) =
      some (invertNode b) ∧
    ((btor_map_node rc m a b).2).tbl.length = m.tbl.length + 1 := by
  obtain ⟨aid, atag⟩ := a
  obtain ⟨bid, btag⟩ := b
  simp only at ha hb
  subst ha
  subst hb
  refine ⟨?_, ?_, ?_⟩
  · simp [btor_mapped_node, btor_map_node, lookupTbl, applyTag]
  · simp [btor_mapped_node, btor_map_node, lookupTbl, applyTag, invertNode]
  · simp [btor_map_node]

/-- C3 witness at concrete untagged nodes and tag 3. -/
theorem node_map_tag_preservation_witness :
    btor_mapped_node
      (btor_map_node (fun _ => (0 : Int)) btor_new_node_map ⟨1, 0⟩ ⟨2, 0⟩).2
      (applyTag ⟨1, 0⟩ 3) = some (applyTag ⟨2, 0⟩ 3) :=
  (node_map_tag_preservation (fun _ => 0) btor_new_node_map ⟨1, 0⟩ ⟨2, 0⟩ 3
    rfl rfl).1

/-- C4: during extended substitution the caller-supplied mapper is invoked
only on tag-normalized (non-inverted) references, and the engine re-applies
the original tag of the root reference to the result of substituting its
real node. -/
theorem ext_substitute_tag_normalized
    (f : Nat × ENode → Option (Nat × ENode)) (root : Nat × ENode) :
    (∀ c ∈ (btor_non_recursive_extended_substitute_node f root).2, c.1 = 0) ∧
    (btor_non_recursive_extended_substitute_node f root).1 =
      tagERef root.1 (substExtReal f root.2).1 :=
  ⟨fun c hc => substExtReal_log_tags f root.2 c hc, rfl⟩

/-- C4 witness on a concrete inverted root with the trivial mapper. -/
theorem ext_substitute_tag_normalized_witness :
    ((0, ENode.leaf 5) : Nat × ENode).1 = 0 ∧
    (btor_non_recursive_extended_substitute_node mapperNone (1, ENode.leaf 5)).1 =
      tagERef 1 (substExtReal mapperNone (ENode.leaf 5)).1 :=
  ⟨(ext_substitute_tag_normalized mapperNone (1, ENode.leaf 5)).1
      (0, ENode.leaf 5) (by decide),
   (ext_substitute_tag_normalized mapperNone (1, ENode.leaf 5)).2⟩

/-- C5: btor_next_cnf_id_sat_mgr hits its fatal assertion exactly when the
stored id has reached INT_MAX; below INT_MAX the failure branch is
unreachable and the call returns the id and the incremented manager. -/
theorem next_cnf_id_exhaustion (s : BtorSATMgr) :
    (s.id = INT_MAX → btor_next_cnf_id_sat_mgr s = none) ∧
    (s.id < INT_MAX →
      btor_next_cnf_id_sat_mgr s = some (s.id, ⟨s.id + 1, s.verbosity, s.mm⟩)) := by
  constructor
  · intro h
    rw [btor_next_cnf_id_sat_mgr, if_neg (by omega)]
  · intro h
    rw [btor_next_cnf_id_sat_mgr, if_pos h]

/-- C5 witness: the assertion fires at id = INT_MAX and not at id = 5. -/
theorem next_cnf_id_exhaustion_witness :
    btor_next_cnf_id_sat_mgr ⟨INT_MAX, 0, 1⟩ = none ∧
    btor_next_cnf_id_sat_mgr ⟨5, 0, 1⟩ = some (5, ⟨5 + 1, 0, 1⟩) :=
  ⟨(next_cnf_id_exhaustion ⟨INT_MAX, 0, 1⟩).1 rfl,
   (next_cnf_id_exhaustion ⟨5, 0, 1⟩).2 (by decide)⟩

/-- C6: btor_sat_sat returns one of SAT, UNSAT, UNKNOWN; UNKNOWN occurs only
when the caller-supplied limit is finite (nonnegative) and exhausted, and
the call leaves the manager intact rather than failing. -/
theorem sat_sat_result_range (smgr : BtorSATMgr) (ps : PicoState) (limit : Int) :
    ((btor_sat_sat_pico smgr ps limit).1 = BOOLECTOR_SAT ∨
     (btor_sat_sat_pico smgr ps limit).1 = BOOLECTOR_UNSAT ∨
     (btor_sat_sat_pico smgr ps limit).1 = BOOLECTOR_UNKNOWN) ∧
    ((btor_sat_sat_pico smgr ps limit).1 = BOOLECTOR_UNKNOWN →
      0 ≤ limit ∧ limit < ps.cost) ∧
    (btor_sat_sat_pico smgr ps limit).2 = smgr := by
  simp only [btor_sat_sat_pico, picosat_sat]
  by_cases h : 0 ≤ limit ∧ limit < ps.cost
  · simp [h]
  · cases hb : ps.answerSat <;>
      simp [h, hb, BOOLECTOR_SAT, BOOLECTOR_UNSAT, BOOLECTOR_UNKNOWN]

/-- C6 witness: an exhausted finite limit yields UNKNOWN and the recorded
bounds. -/
theorem sat_sat_result_range_witness :
    (0 : Int) ≤ 3 ∧ (3 : Int) < (⟨false, 10⟩ : PicoState).cost :=
  (sat_sat_result_range ⟨1, 0, 1⟩ ⟨false, 10⟩ 3).2.1 (by decide)

/-- C7: for every width, unsigned division by zero returns the all-ones
bit vector (the two's complement pattern of -1) and unsigned remainder by
zero returns the dividend. -/
theorem udiv_urem_zero_sentinel (w a : Nat) (hw : 0 < w) :
    btor_udiv w a 0 = allOnesBV w ∧ btor_urem w a 0 = a ∧ allOnesBV w < 2 ^ w := by
  have hpos : (0 : Nat) < 2 ^ w := pow_pos (by norm_num) w
  have hposN : (0 : Int) < (2 : Int) ^ w := by positivity
  refine ⟨?_, by simp [btor_urem], by simp only [allOnesBV]; omega⟩
  rw [btor_udiv, if_pos rfl]
  have e1 : (-1 : Int) = ((2 : Int) ^ w - 1) + (2 : Int) ^ w * (-1) := by ring
  rw [e1, Int.add_mul_emod_self_left, Int.emod_eq_of_lt (by omega) (by omega)]
  have hcast : ((2 : Int) ^ w) = ((2 ^ w : Nat) : Int) := by push_cast; ring
  rw [hcast, allOnesBV]
  omega

/-- C7 witness at width 4 and dividend 7. -/
theorem udiv_urem_zero_sentinel_witness :
    btor_udiv 4 7 0 = allOnesBV 4 ∧ btor_urem 4 7 0 = 7 ∧ allOnesBV 4 < 2 ^ 4 :=
  udiv_urem_zero_sentinel 4 7 (by decide)

/-- C8: the surfaced status codes have the fixed values UNKNOWN = 0,
SAT = 10, UNSAT = 20, PARSE_ERROR = 1, and the four values are pairwise
distinct. -/
theorem status_code_values :
    BOOLECTOR_UNKNOWN = 0 ∧ BOOLECTOR_SAT = 10 ∧ BOOLECTOR_UNSAT = 20 ∧
    BOOLECTOR_PARSE_ERROR = 1 ∧
    BOOLECTOR_UNKNOWN ≠ BOOLECTOR_SAT ∧ BOOLECTOR_UNKNOWN ≠ BOOLECTOR_UNSAT ∧
    BOOLECTOR_UNKNOWN ≠ BOOLECTOR_PARSE_ERROR ∧
    BOOLECTOR_SAT ≠ BOOLECTOR_UNSAT ∧ BOOLECTOR_SAT ≠ BOOLECTOR_PARSE_ERROR ∧
    BOOLECTOR_UNSAT ≠ BOOLECTOR_PARSE_ERROR := by
  decide

/-- C9: btor_get_last_cnf_id_sat_mgr on a fresh manager (id still 1) fails
its fatal assertion; after at least one successful btor_next_cnf_id_sat_mgr
call it returns normally. -/
theorem last_cnf_id_precondition (mm : Nat) (v : Int) (s s2 : BtorSATMgr)
    (N : Nat) (ids : List Int)
    (hs : btor_new_sat_mgr mm v = some s) (hN : 1 ≤ N)
    (hrun : issueIds N s = some (ids, s2)) :
    btor_get_last_cnf_id_sat_mgr s = none ∧
    btor_get_last_cnf_id_sat_mgr s2 = some (s2.id - 1) := by
  have hid : s.id = 1 := by
    rw [btor_new_sat_mgr] at hs
    split at hs
    · obtain rfl : (⟨1, v, mm⟩ : BtorSATMgr) = s := Option.some.inj hs
      rfl
    · exact absurd hs (by simp)
  have hid2 : s2.id = s.id + (N : Int) := issueIds_final_id N s s2 ids hrun
  constructor
  · rw [btor_get_last_cnf_id_sat_mgr, if_neg (by omega)]
  · rw [btor_get_last_cnf_id_sat_mgr, if_pos (by omega)]

/-- C9 witness: the fresh manager fails the lookup, the manager after one
issued id succeeds. -/
theorem last_cnf_id_precondition_witness :
    btor_get_last_cnf_id_sat_mgr ⟨1, 0, 1⟩ = none ∧
    btor_get_last_cnf_id_sat_mgr ⟨2, 0, 1⟩ =
      some ((⟨2, 0, 1⟩ : BtorSATMgr).id - 1) :=
  last_cnf_id_precondition 1 0 ⟨1, 0, 1⟩ ⟨2, 0, 1⟩ 1 [1] (by decide) (by decide)
    (by decide)

/-- C10: every SAT manager operation other than btor_next_cnf_id_sat_mgr
leaves the whole manager record (id counter, verbosity, memory manager)
unchanged, for every backend and every backend state. -/
theorem sat_ops_frame {σ : Type} (api : PicoAPI σ) (st : BtorSATMgr × σ)
    (lit limit : Int) (out : Nat) :
    (btor_init_sat api st).1 = st.1 ∧
    (btor_set_output_sat api st out).1 = st.1 ∧
    (btor_enable_verbosity_sat api st).1 = st.1 ∧
    (btor_print_stats_sat api st).1 = st.1 ∧
    (btor_add_sat api st lit).1 = st.1 ∧
    (btor_dump_cnf_sat api st out).1 = st.1 ∧
    (btor_assume_sat api st lit).1 = st.1 ∧
    (btor_sat_sat api st limit).2.1 = st.1 ∧
    (btor_deref_sat api st lit).2.1 = st.1 ∧
    (btor_reset_sat api st).1 = st.1 ∧
    (btor_changed_assignments_sat api st).2.1 = st.1 :=
  ⟨rfl, rfl, rfl, rfl, rfl, rfl, rfl, rfl, rfl, rfl, rfl⟩

end BoolectorSpec
